import Mathlib

set_option maxRecDepth 40000

/-!
Verification of the XMODEM endpoint in `src/xmodem.py`.

The serial channel is modelled as an explicit trace of read results:
* the sender performs only `ser.read(1)` calls, so its incoming trace is a
  `List (Option Nat)` (one entry per read; `none` is an empty/timed-out read);
* the receiver performs `ser.read(1)`, `ser.read(128)` and `ser.read(2)`
  calls, so its incoming trace is a `List (List Nat)` (one entry per read
  call, holding the bytes that call returned, possibly short on timeout).
Bytes written with `ser.write` are accumulated as a `List (List Nat)`, one
entry per write call.  The sender's timed handshake wait is collapsed to its
observable outcome: the first byte received within the 10-second window, if
any (`Option Nat`).  Loops that the source bounds by a retry counter are
translated by structural recursion on the remaining retry budget; the
receiver's unbounded `while True` loop takes explicit fuel, with `none`
meaning the loop did not terminate within the supplied fuel.
-/

/-! ## Protocol constants (`src/xmodem.py`, lines 10–22) -/

def SOH : Nat := 0x01
def EOT : Nat := 0x04
def ACK : Nat := 0x06
def NAK : Nat := 0x15
def CAN : Nat := 0x18
def C : Nat := 0x43
def PADDING : Nat := 0x1a
def BLOCK_SIZE : Nat := 128
def RETRY_LIMIT : Nat := 10

inductive ChecksumType where
  | BASIC
  | CRC
deriving DecidableEq, BEq

/-! ## Integrity codecs (`calculate_checksum`, `calculate_crc`) -/

/-- `calculate_checksum` (line 28–30): `sum(data) & 0xFF`. -/
def calculate_checksum (data : List Nat) : Nat :=
  data.sum &&& 0xFF

/-- One iteration of the inner `for _ in range(8)` loop of `calculate_crc`
(lines 37–41): if `crc & 0x8000` is nonzero, `crc = (crc << 1) ^ 0x1021`,
else `crc = crc << 1`. -/
def crcShiftStep (crc : Nat) : Nat :=
  if crc &&& 0x8000 ≠ 0 then (crc <<< 1) ^^^ 0x1021 else crc <<< 1

/-- `k` iterations of `crcShiftStep`. -/
def crcShiftLoop : Nat → Nat → Nat
  | 0, crc => crc
  | k + 1, crc => crcShiftLoop k (crcShiftStep crc)

/-- `calculate_crc` (lines 32–43): start from 0; per byte, XOR `byte << 8`
into the register, run the 8-step shift loop, then mask with `0xFFFF`. -/
def calculate_crc (data : List Nat) : Nat :=
  data.foldl (fun crc byte => crcShiftLoop 8 (crc ^^^ (byte <<< 8)) &&& 0xFFFF) 0

/-- One CRC round as §4.1 of the spec words it: shift the register left one
bit; if the pre-shift high bit (bit 15, read off arithmetically) was set,
XOR the register with 0x1021 after shifting. -/
def crcSpecRound (c : Nat) : Nat :=
  if c / 2 ^ 15 % 2 = 1 then c * 2 ^^^ 0x1021 else c * 2

/-- `k` spec rounds. -/
def crcSpecRounds : Nat → Nat → Nat
  | 0, c => c
  | k + 1, c => crcSpecRounds k (crcSpecRound c)

/-- Per-byte step as the spec words it: XOR `b << 8` into the register, run
8 rounds, mask to 16 bits. -/
def crcSpecByte (c b : Nat) : Nat :=
  crcSpecRounds 8 (c ^^^ b * 2 ^ 8) % 2 ^ 16

/-- Tail-recursive accumulation of `crcSpecByte` over the payload. -/
def crcSpecGo : Nat → List Nat → Nat
  | c, [] => c
  | c, b :: bs => crcSpecGo (crcSpecByte c b) bs

/-- CRC-CCITT/XMODEM as §4.1 of the spec describes it: initial value 0,
`crcSpecByte` for each payload byte in order. -/
def crc_ccitt_spec (data : List Nat) : Nat :=
  crcSpecGo 0 data

/-! ## Sender-side framing (`send_file`, lines 76–82 and 106–117) -/

/-- The pre-pad step of `send_file` (lines 76–79): `padding_size = 128 -
len % 128`; append that many `0x1A` bytes when `padding_size < 128`. -/
def padContent (content : List Nat) : List Nat :=
  let paddingSize := BLOCK_SIZE - content.length % BLOCK_SIZE
  if paddingSize < BLOCK_SIZE then content ++ List.replicate paddingSize PADDING
  else content

/-- Fuelled 128-byte chunking; fuel bounds the number of chunks taken. -/
def chunkAux : Nat → List Nat → List (List Nat)
  | 0, _ => []
  | _, [] => []
  | fuel + 1, l => l.take BLOCK_SIZE :: chunkAux fuel (l.drop BLOCK_SIZE)

/-- The block split of `send_file` (line 82): successive 128-byte slices. -/
def chunkBlocks (l : List Nat) : List (List Nat) :=
  chunkAux l.length l

/-- The packet built at lines 106–117: SOH, block number masked to a byte,
`255 -` that byte, the 128-byte block, then a 2-byte big-endian CRC trailer
or a 1-byte checksum trailer. -/
def buildPacket (blockNumber : Nat) (block : List Nat) (useCrc : Bool) : List Nat :=
  [SOH, blockNumber &&& 0xFF, 255 - (blockNumber &&& 0xFF)] ++ block ++
    (if useCrc then
      [(calculate_crc block >>> 8) &&& 0xFF, calculate_crc block &&& 0xFF]
    else
      [calculate_checksum block])

/-! ## Sender state machine (`send_file`, lines 86–158) -/

inductive BlockResult where
  | acked
  | canceled
  | exhausted
deriving DecidableEq

inductive SendOutcome where
  | success
  | handshakeTimeout
  | peerCanceled
  | retryExhausted
  | eotNotAcked
deriving DecidableEq

/-- One `ser.read(1)` on the sender side: pop the next trace entry, or a
timed-out empty read if the trace is exhausted. -/
def readS : List (Option Nat) → Option Nat × List (Option Nat)
  | [] => (none, [])
  | r :: rs => (r, rs)

/-- The per-block retry loop of `send_file` (lines 103–136), with `fuel` the
remaining retry budget out of `RETRY_LIMIT`.  Each attempt writes the packet,
then reads one response: `ACK` ends the block, `CAN` cancels the transfer
(line 130), and `NAK`, `'C'`, an empty read, or any other byte consume one
retry and retransmit. -/
def attemptBlock (useCrc : Bool) (blockNumber : Nat) (block : List Nat) :
    Nat → List (Option Nat) → List (List Nat) →
      BlockResult × List (Option Nat) × List (List Nat)
  | 0, reads, writes => (.exhausted, reads, writes)
  | fuel + 1, reads, writes =>
    let ws := writes ++ [buildPacket blockNumber block useCrc]
    let r := readS reads
    if r.1 = some ACK then (.acked, r.2, ws)
    else if r.1 = some CAN then (.canceled, r.2, ws)
    else attemptBlock useCrc blockNumber block fuel r.2 ws

/-- The EOT loop of `send_file` (lines 146–158): up to `fuel` times, write
EOT and read a response; `ACK` succeeds, anything else retries. -/
def sendEot : Nat → List (Option Nat) → List (List Nat) →
    SendOutcome × List (Option Nat) × List (List Nat)
  | 0, reads, writes => (.eotNotAcked, reads, writes)
  | fuel + 1, reads, writes =>
    let ws := writes ++ [[EOT]]
    let r := readS reads
    if r.1 = some ACK then (.success, r.2, ws)
    else sendEot fuel r.2 ws

/-- The outer block loop of `send_file` (lines 101–144): each block gets a
fresh retry budget; on `ACK` the block number advances by one modulo 256; on
cancel the transfer aborts; on retry exhaustion the sender writes `CAN CAN`
(line 141) and aborts.  After the last block, the EOT phase runs. -/
def sendBlocks (useCrc : Bool) :
    List (List Nat) → Nat → List (Option Nat) → List (List Nat) →
      SendOutcome × List (Option Nat) × List (List Nat)
  | [], _, reads, writes => sendEot RETRY_LIMIT reads writes
  | b :: bs, n, reads, writes =>
    match attemptBlock useCrc n b RETRY_LIMIT reads writes with
    | (.acked, rest, ws) => sendBlocks useCrc bs ((n + 1) % 256) rest ws
    | (.canceled, rest, ws) => (.peerCanceled, rest, ws)
    | (.exhausted, rest, ws) => (.retryExhausted, rest, ws ++ [[CAN, CAN]])

/-- `send_file` (lines 64–158) over the trace model.  `initiateChar` is the
outcome of the 10-second handshake wait (lines 86–97): the first byte that
arrived, or `none` on timeout, in which case the function returns having
written nothing.  Otherwise CRC mode is used exactly when the byte is `'C'`
and CRC was requested (line 99), and the block loop starts at block 1. -/
def send_file (fileContent : List Nat) (checksum_type : ChecksumType)
    (initiateChar : Option Nat) (reads : List (Option Nat)) :
    SendOutcome × List (List Nat) :=
  let blocks := chunkBlocks (padContent fileContent)
  match initiateChar with
  | none => (.handshakeTimeout, [])
  | some c =>
    let useCrc := c == C && checksum_type == ChecksumType.CRC
    let r := sendBlocks useCrc blocks 1 reads []
    (r.1, r.2.2)

/-! ## Receiver state machine (`receive_file`, lines 160–282) -/

/-- The sequence-byte test at line 206, in the code's un-reduced form:
`ord(block_num) + ord(block_num_complement) == 255`. -/
def seqCheck (blockNum complement : Nat) : Bool :=
  blockNum + complement == 255

/-- The padding strip of `receive_file` (lines 270–272): pop trailing
`0x1A` bytes. -/
def stripPadding (l : List Nat) : List Nat :=
  (l.reverse.dropWhile (fun b => b == PADDING)).reverse

/-- The integrity-trailer step of `receive_file` (lines 218–241).  In both
modes the trailer is one `ser.read` call (2 bytes requested in CRC mode at
line 220, 1 byte in checksum mode at line 232); the four NAK exits of the
source — short CRC read, CRC mismatch, empty checksum read, checksum
mismatch — are collapsed into this single test on that call's result. -/
def trailerOk (useCrc : Bool) (dataBlock tR : List Nat) : Bool :=
  if useCrc then
    decide (tR.length = 2) &&
      ((tR.getD 0 0) <<< 8) ||| tR.getD 1 0 == calculate_crc dataBlock
  else
    match tR with
    | [] => false
    | ck :: _ => ck == calculate_checksum dataBlock

/-- The `while True` frame loop of `receive_file` (lines 191–268), entered
with SOH already consumed.  Each trace entry is the byte string one
`ser.read` call returned.  Result: `some (flag, received_data, writes)`
where `flag` is the Python return value reached from inside the loop
(`False` on the out-of-sequence path at line 256, `True` after an ACKed
EOT), or `none` if the loop is still running when the trace runs out of
fuel or reads.  After the sequence check (lines 244–256) the next read is
the lead byte (lines 258–268): `EOT` is ACKed and the loop breaks; `SOH`,
an empty read, and any other byte all `continue` to the top of the loop. -/
def receiveLoop (useCrc : Bool) :
    Nat → List (List Nat) → Nat → List Nat → List (List Nat) →
      Option (Bool × List Nat × List (List Nat))
  | 0, _, _, _, _ => none
  | fuel + 1, reads, expected, acc, writes =>
    match reads with
    | [] => none
    | blockNumR :: r1 =>
      match blockNumR with
      | [] => receiveLoop useCrc fuel r1 expected acc (writes ++ [[NAK]])
      | bn :: _ =>
        match r1 with
        | [] => none
        | compR :: r2 =>
          match compR with
          | [] => receiveLoop useCrc fuel r2 expected acc (writes ++ [[NAK]])
          | comp :: _ =>
            if seqCheck bn comp = false then
              receiveLoop useCrc fuel r2 expected acc (writes ++ [[NAK]])
            else
              match r2 with
              | [] => none
              | dataBlock :: r3 =>
                if dataBlock.length ≠ BLOCK_SIZE then
                  receiveLoop useCrc fuel r3 expected acc (writes ++ [[NAK]])
                else
                  match r3 with
                  | [] => none
                  | tR :: r4 =>
                    if trailerOk useCrc dataBlock tR = false then
                      receiveLoop useCrc fuel r4 expected acc (writes ++ [[NAK]])
                    else if bn = expected then
                      match r4 with
                      | [] => none
                      | d :: r5 =>
                        if d = [EOT] then
                          some (true, acc ++ dataBlock, writes ++ [[ACK], [ACK]])
                        else if d = [SOH] then
                          receiveLoop useCrc fuel r5 ((expected + 1) % 256)
                            (acc ++ dataBlock) (writes ++ [[ACK]])
                        else if d = [] then
                          receiveLoop useCrc fuel r5 ((expected + 1) % 256)
                            (acc ++ dataBlock) (writes ++ [[ACK]])
                        else
                          receiveLoop useCrc fuel r5 ((expected + 1) % 256)
                            (acc ++ dataBlock) (writes ++ [[ACK]])
                    else if bn = (expected + 255) % 256 then
                      match r4 with
                      | [] => none
                      | d :: r5 =>
                        if d = [EOT] then
                          some (true, acc, writes ++ [[ACK], [ACK]])
                        else if d = [SOH] then
                          receiveLoop useCrc fuel r5 expected acc (writes ++ [[ACK]])
                        else if d = [] then
                          receiveLoop useCrc fuel r5 expected acc (writes ++ [[ACK]])
                        else
                          receiveLoop useCrc fuel r5 expected acc (writes ++ [[ACK]])
                    else
                      some (false, acc, writes ++ [[CAN], [CAN]])

/-- `receive_file` after a successful handshake, starting at
`expected_block = 1` with an empty buffer (lines 188–189).  On the `True`
exit the stripped payload is written to the sink (lines 270–279); on the
`False` exit nothing is written. -/
def receive_file (useCrc : Bool) (reads : List (List Nat)) :
    Option (List Nat) × List (List Nat) :=
  match receiveLoop useCrc (reads.length + 1) reads 1 [] [] with
  | some (true, acc, ws) => (some (stripPadding acc), ws)
  | some (false, _, ws) => (none, ws)
  | none => (none, [])

/-- Modelled from the spec (§4.4, lead-byte step): after a processed frame
the receiver reads one byte as the lead of the next event; `EOT` is ACKed
and ends the transfer, `SOH` re-enters the frame loop with SOH consumed,
and a timeout or any other byte loops back to read the NEXT LEAD BYTE.
This is the behaviour the spec sentence claims; `receiveLoop` above is the
code's actual behaviour.  The `Bool` argument is `true` in the lead-reading
phase and `false` in the frame phase. -/
def receiveLoopSpecLead (useCrc : Bool) :
    Nat → Bool → List (List Nat) → Nat → List Nat → List (List Nat) →
      Option (Bool × List Nat × List (List Nat))
  | 0, _, _, _, _, _ => none
  | fuel + 1, true, reads, expected, acc, writes =>
    match reads with
    | [] => none
    | d :: r =>
      if d = [EOT] then some (true, acc, writes ++ [[ACK]])
      else if d = [SOH] then receiveLoopSpecLead useCrc fuel false r expected acc writes
      else receiveLoopSpecLead useCrc fuel true r expected acc writes
  | fuel + 1, false, reads, expected, acc, writes =>
    match reads with
    | [] => none
    | blockNumR :: r1 =>
      match blockNumR with
      | [] => receiveLoopSpecLead useCrc fuel true r1 expected acc (writes ++ [[NAK]])
      | bn :: _ =>
        match r1 with
        | [] => none
        | compR :: r2 =>
          match compR with
          | [] => receiveLoopSpecLead useCrc fuel true r2 expected acc (writes ++ [[NAK]])
          | comp :: _ =>
            if seqCheck bn comp = false then
              receiveLoopSpecLead useCrc fuel true r2 expected acc (writes ++ [[NAK]])
            else
              match r2 with
              | [] => none
              | dataBlock :: r3 =>
                if dataBlock.length ≠ BLOCK_SIZE then
                  receiveLoopSpecLead useCrc fuel true r3 expected acc (writes ++ [[NAK]])
                else
                  match r3 with
                  | [] => none
                  | tR :: r4 =>
                    if trailerOk useCrc dataBlock tR = false then
                      receiveLoopSpecLead useCrc fuel true r4 expected acc (writes ++ [[NAK]])
                    else if bn = expected then
                        receiveLoopSpecLead useCrc fuel true r4 ((expected + 1) % 256)
                          (acc ++ dataBlock) (writes ++ [[ACK]])
                      else if bn = (expected + 255) % 256 then
                        receiveLoopSpecLead useCrc fuel true r4 expected acc (writes ++ [[ACK]])
                      else
                        some (false, acc, writes ++ [[CAN], [CAN]])

/-! ## Helper lemmas -/

theorem and_255_eq_mod (n : Nat) : n &&& 255 = n % 256 := by
  simpa using Nat.and_pow_two_sub_one_eq_mod n 8

theorem and_65535_eq_mod (n : Nat) : n &&& 65535 = n % 65536 := by
  simpa using Nat.and_pow_two_sub_one_eq_mod n 16

theorem and_32768_ne_zero_iff (c : Nat) : c &&& 0x8000 ≠ 0 ↔ c / 2 ^ 15 % 2 = 1 := by
  have h2 : (0x8000 : Nat) = 2 ^ 15 := by norm_num
  rw [h2, Nat.and_two_pow c 15, Nat.testBit_to_div_mod]
  by_cases h : c / 2 ^ 15 % 2 = 1 <;> simp [h]

theorem crcShiftStep_eq_specRound (c : Nat) : crcShiftStep c = crcSpecRound c := by
  unfold crcShiftStep crcSpecRound
  by_cases h : c &&& 0x8000 ≠ 0
  · rw [if_pos h, if_pos ((and_32768_ne_zero_iff c).mp h), Nat.shiftLeft_eq]
  · rw [if_neg h, if_neg fun hc => h ((and_32768_ne_zero_iff c).mpr hc), Nat.shiftLeft_eq]

theorem crcShiftLoop_eq_specRounds (k c : Nat) : crcShiftLoop k c = crcSpecRounds k c := by
  induction k generalizing c with
  | zero => rfl
  | succ n ih => rw [crcShiftLoop, crcSpecRounds, crcShiftStep_eq_specRound, ih]

theorem crc_byte_step_eq_spec (crc byte : Nat) :
    crcShiftLoop 8 (crc ^^^ (byte <<< 8)) &&& 0xFFFF = crcSpecByte crc byte := by
  unfold crcSpecByte
  rw [crcShiftLoop_eq_specRounds, Nat.shiftLeft_eq, and_65535_eq_mod]
  norm_num

theorem crc_foldl_eq_specGo (l : List Nat) (c : Nat) :
    l.foldl (fun crc byte => crcShiftLoop 8 (crc ^^^ (byte <<< 8)) &&& 0xFFFF) c =
      crcSpecGo c l := by
  induction l generalizing c with
  | nil => rfl
  | cons b bs ih =>
    rw [List.foldl_cons, crcSpecGo, ih, crc_byte_step_eq_spec]

theorem crcSpecByte_zero : crcSpecByte 0 0 = 0 := by decide

theorem crcSpecGo_zero (n : Nat) : crcSpecGo 0 (List.replicate n 0) = 0 := by
  induction n with
  | zero => rfl
  | succ k ih => rw [List.replicate_succ, crcSpecGo, crcSpecByte_zero, ih]

theorem dropWhile_padding_of_head (l : List Nat) (h : l.head? ≠ some PADDING) :
    l.dropWhile (fun b => b == PADDING) = l := by
  cases l with
  | nil => rfl
  | cons a t =>
    have ha : (a == PADDING) = false := by
      simp only [List.head?_cons, ne_eq, Option.some.injEq] at h
      simpa using h
    rw [List.dropWhile_cons, ha]
    simp

theorem dropWhile_padding_replicate (k : Nat) (l : List Nat) :
    (List.replicate k PADDING ++ l).dropWhile (fun b => b == PADDING) =
      l.dropWhile (fun b => b == PADDING) := by
  induction k with
  | zero => rfl
  | succ n ih =>
    rw [List.replicate_succ, List.cons_append, List.dropWhile_cons, if_pos (by simp)]
    exact ih

theorem stripPadding_append_replicate (F : List Nat) (k : Nat)
    (h : F.getLast? ≠ some PADDING) :
    stripPadding (F ++ List.replicate k PADDING) = F := by
  unfold stripPadding
  rw [List.reverse_append, List.reverse_replicate, dropWhile_padding_replicate,
    dropWhile_padding_of_head _ (by rwa [List.head?_reverse]), List.reverse_reverse]

/-! ## Claim theorems -/

/-- C1: round-trip of padding.  For every byte string `F` whose final byte
is not 0x1A, stripping trailing 0x1A bytes (as `receive_file` does in
post-processing) from the padded payload that `send_file` constructs yields
`F` again; and when `|F|` is not a multiple of 128 that padded payload is
`F` followed by `128 - |F| % 128` bytes of 0x1A, `F` unchanged otherwise. -/
theorem padding_roundtrip (F : List Nat) (h : F.getLast? ≠ some PADDING) :
    stripPadding (padContent F) = F ∧
      (F.length % 128 ≠ 0 →
        padContent F = F ++ List.replicate (128 - F.length % 128) PADDING) ∧
      (F.length % 128 = 0 → padContent F = F) := by
  refine ⟨?_, fun h1 => ?_, fun h0 => ?_⟩
  · simp only [padContent, BLOCK_SIZE, PADDING]
    by_cases h0 : F.length % 128 = 0
    · rw [if_neg (by omega)]
      simpa using stripPadding_append_replicate F 0 h
    · rw [if_pos (by omega)]
      exact stripPadding_append_replicate F _ h
  · simp only [padContent, BLOCK_SIZE, PADDING]
    rw [if_pos (by omega)]
  · simp only [padContent, BLOCK_SIZE, PADDING]
    rw [if_neg (by omega)]

theorem padding_roundtrip_witness :
    stripPadding (padContent [5]) = [5] :=
  (padding_roundtrip [5] (by decide)).1

/-- C2: frame sequence-byte invariant.  For every block number `N ≤ 255`
the frame built by `send_file` carries the byte pair `(N, 255 - N)` right
after SOH; that pair passes the receiver's test; and the receiver's
un-reduced test `ord(block_num) + ord(complement) == 255` accepts a byte
pair exactly when `(N + complement) % 256 = 255`. -/
theorem frame_sequence_invariant (N : Nat) (hN : N ≤ 255) :
    (∀ blk m, (buildPacket N blk m).take 3 = [SOH, N, 255 - N]) ∧
      seqCheck N (255 - N) = true ∧
      (∀ c, c ≤ 255 → (seqCheck N c = true ↔ (N + c) % 256 = 255)) := by
  refine ⟨fun blk m => ?_, ?_, fun c hc => ?_⟩
  · simp [buildPacket, and_255_eq_mod, Nat.mod_eq_of_lt (show N < 256 by omega),
      List.take]
  · simp only [seqCheck, beq_iff_eq]
    omega
  · simp only [seqCheck, beq_iff_eq]
    constructor <;> intro h <;> omega

theorem frame_sequence_invariant_witness :
    (buildPacket 0 [] false).take 3 = [SOH, 0, 255 - 0] ∧
      seqCheck 0 (255 - 0) = true :=
  ⟨(frame_sequence_invariant 0 (by decide)).1 [] false,
    (frame_sequence_invariant 0 (by decide)).2.1⟩

/-- C3: `calculate_crc` implements CRC-CCITT/XMODEM exactly as §4.1 of the
spec describes it — register seeded 0; per input byte, `b << 8` XORed in,
then 8 shift-left rounds applying XOR 0x1021 when the pre-shift high bit
was set, masking to 16 bits after each byte — and applied to 128 bytes of
0x00 it returns 0x0000. -/
theorem calculate_crc_meets_spec :
    (∀ data : List Nat, calculate_crc data = crc_ccitt_spec data) ∧
      calculate_crc (List.replicate 128 0) = 0 := by
  have hall : ∀ data : List Nat, calculate_crc data = crc_ccitt_spec data :=
    fun data => crc_foldl_eq_specGo data 0
  exact ⟨hall, by rw [hall]; exact crcSpecGo_zero 128⟩

/-- C4: `calculate_checksum` on any 128-byte payload is the arithmetic sum
of its bytes modulo 256; on 128 bytes of 0xFF it returns 0x80. -/
theorem calculate_checksum_mod :
    (∀ P : List Nat, P.length = 128 → calculate_checksum P = P.sum % 256) ∧
      calculate_checksum (List.replicate 128 0xFF) = 0x80 := by
  refine ⟨fun P _ => and_255_eq_mod P.sum, ?_⟩
  decide

theorem calculate_checksum_mod_witness :
    calculate_checksum (List.replicate 128 255) = (List.replicate 128 255).sum % 256 :=
  calculate_checksum_mod.1 _ (by decide)

theorem append_singleton_replicate {α : Type} (ws : List α) (p : α) (m : Nat) :
    ws ++ [p] ++ List.replicate m p = ws ++ List.replicate (m + 1) p := by
  simp [List.replicate_succ, List.append_assoc]

theorem calculate_crc_replicate_zero : calculate_crc (List.replicate 128 0) = 0 :=
  (crc_foldl_eq_specGo _ 0).trans (crcSpecGo_zero 128)

theorem attemptBlock_writes (useCrc : Bool) (n : Nat) (b : List Nat) :
    ∀ (fuel : Nat) (reads : List (Option Nat)) (ws : List (List Nat)),
      ∃ m, m ≤ fuel ∧
        (attemptBlock useCrc n b fuel reads ws).2.2 =
          ws ++ List.replicate m (buildPacket n b useCrc) := by
  intro fuel
  induction fuel with
  | zero => intro reads ws; exact ⟨0, Nat.le_refl 0, by simp [attemptBlock]⟩
  | succ k ih =>
    intro reads ws
    cases reads with
    | nil =>
      obtain ⟨m, hm, hw⟩ := ih [] (ws ++ [buildPacket n b useCrc])
      refine ⟨m + 1, by omega, ?_⟩
      simp only [attemptBlock, readS]
      rw [if_neg (by simp), if_neg (by simp), hw, append_singleton_replicate]
    | cons r rs =>
      by_cases h6 : r = some ACK
      · refine ⟨1, by omega, ?_⟩
        simp only [attemptBlock, readS]
        rw [if_pos h6]
        simp
      · by_cases h24 : r = some CAN
        · refine ⟨1, by omega, ?_⟩
          simp only [attemptBlock, readS]
          rw [if_neg h6, if_pos h24]
          simp
        · obtain ⟨m, hm, hw⟩ := ih rs (ws ++ [buildPacket n b useCrc])
          refine ⟨m + 1, by omega, ?_⟩
          simp only [attemptBlock, readS]
          rw [if_neg h6, if_neg h24, hw, append_singleton_replicate]

theorem attemptBlock_no_ack_can (useCrc : Bool) (n : Nat) (b : List Nat) :
    ∀ (fuel : Nat) (reads : List (Option Nat)) (ws : List (List Nat)),
      (∀ r ∈ reads, r ≠ some ACK ∧ r ≠ some CAN) →
      attemptBlock useCrc n b fuel reads ws =
        (.exhausted, reads.drop fuel,
          ws ++ List.replicate fuel (buildPacket n b useCrc)) := by
  intro fuel
  induction fuel with
  | zero => intro reads ws _; simp [attemptBlock]
  | succ k ih =>
    intro reads ws hr
    cases reads with
    | nil =>
      simp only [attemptBlock, readS]
      rw [if_neg (by simp), if_neg (by simp), ih [] _ (by simp),
        append_singleton_replicate]
      simp
    | cons r rs =>
      obtain ⟨h6, h24⟩ := hr r (List.mem_cons_self r rs)
      simp only [attemptBlock, readS]
      rw [if_neg h6, if_neg h24, ih rs _ (fun x hx => hr x (List.mem_cons_of_mem r hx)),
        append_singleton_replicate, List.drop_succ_cons]

theorem attemptBlock_not_acked (useCrc : Bool) (n : Nat) (b : List Nat) :
    ∀ (fuel : Nat) (reads : List (Option Nat)) (ws : List (List Nat)),
      (∀ r ∈ reads, r ≠ some ACK) →
      (attemptBlock useCrc n b fuel reads ws).1 ≠ BlockResult.acked := by
  intro fuel
  induction fuel with
  | zero => intro reads ws _; simp [attemptBlock]
  | succ k ih =>
    intro reads ws hr
    cases reads with
    | nil =>
      simp only [attemptBlock, readS]
      rw [if_neg (by simp), if_neg (by simp)]
      exact ih [] _ (by simp)
    | cons r rs =>
      have h6 := hr r (List.mem_cons_self r rs)
      simp only [attemptBlock, readS]
      rw [if_neg h6]
      by_cases h24 : r = some CAN
      · rw [if_pos h24]; simp
      · rw [if_neg h24]
        exact ih rs _ (fun x hx => hr x (List.mem_cons_of_mem r hx))

theorem sendEot_writes (fuel : Nat) :
    ∀ (reads : List (Option Nat)) (ws : List (List Nat)),
      ∃ k, 1 ≤ k ∧ k ≤ fuel + 1 ∧
        (sendEot (fuel + 1) reads ws).2.2 = ws ++ List.replicate k [EOT] := by
  induction fuel with
  | zero =>
    intro reads ws
    refine ⟨1, Nat.le_refl 1, Nat.le_refl 1, ?_⟩
    cases reads with
    | nil => simp [sendEot, readS]
    | cons r rs =>
      have hstep : sendEot 1 (r :: rs) ws =
          if r = some ACK then (.success, rs, ws ++ [[EOT]])
          else sendEot 0 rs (ws ++ [[EOT]]) := rfl
      rw [hstep]
      by_cases h6 : r = some ACK
      · rw [if_pos h6]; simp
      · rw [if_neg h6]; simp [sendEot]
  | succ m ih =>
    intro reads ws
    cases reads with
    | nil =>
      have hstep : sendEot (m + 1 + 1) [] ws = sendEot (m + 1) [] (ws ++ [[EOT]]) := rfl
      obtain ⟨k, h1, hk, hw⟩ := ih [] (ws ++ [[EOT]])
      refine ⟨k + 1, by omega, by omega, ?_⟩
      rw [hstep, hw, append_singleton_replicate]
    | cons r rs =>
      have hstep : sendEot (m + 1 + 1) (r :: rs) ws =
          if r = some ACK then (.success, rs, ws ++ [[EOT]])
          else sendEot (m + 1) rs (ws ++ [[EOT]]) := rfl
      by_cases h6 : r = some ACK
      · refine ⟨1, Nat.le_refl 1, by omega, ?_⟩
        rw [hstep, if_pos h6]
        simp
      · obtain ⟨k, h1, hk, hw⟩ := ih rs (ws ++ [[EOT]])
        refine ⟨k + 1, by omega, by omega, ?_⟩
        rw [hstep, if_neg h6, hw, append_singleton_replicate]

/-- C5 counterexample: the first handshake byte is ACK (0x06), which is
neither 'C' (0x43) nor NAK (0x15), yet the sender does NOT abort — it
proceeds in checksum mode, sends the data frame, and completes the
transfer.  The claimed HandshakeFailed abort does not happen. -/
theorem sender_handshake_counterexample :
    send_file (List.replicate 128 0) ChecksumType.CRC (some ACK) [some ACK, some ACK] =
      (.success, [buildPacket 1 (List.replicate 128 0) false, [EOT]]) := by
  decide

/-- C5 (amended): the sender aborts the handshake only when NO byte arrives
within the 10-second window, and then it has written nothing; if ANY byte
arrives — 'C', NAK, or any other value — the sender proceeds with the
transfer, using checksum mode for every byte other than 'C'. -/
theorem sender_handshake_behaviour :
    (∀ (content : List Nat) (ct : ChecksumType) (reads : List (Option Nat)),
      send_file content ct none reads = (.handshakeTimeout, [])) ∧
      (∀ b : Nat, b ≠ C →
        send_file (List.replicate 128 0) ChecksumType.CRC (some b) [some ACK, some ACK] =
          (.success, [buildPacket 1 (List.replicate 128 0) false, [EOT]])) := by
  refine ⟨fun content ct reads => rfl, fun b hb => ?_⟩
  have hbeq : (b == C) = false := by simpa using hb
  simp only [send_file, hbeq, Bool.false_and]
  decide

theorem sender_handshake_behaviour_witness :
    send_file (List.replicate 128 0) ChecksumType.CRC (some NAK) [some ACK, some ACK] =
      (.success, [buildPacket 1 (List.replicate 128 0) false, [EOT]]) :=
  sender_handshake_behaviour.2 NAK (by decide)

/-- C9: sender retry discipline.  (1) Every write the per-block retry loop
makes is the identical frame for that block, however the peer responds;
(2) when every response is neither ACK nor CAN the loop makes exactly 10
attempts with the same frame, then the sender writes `CAN CAN` and aborts
with the retry-exhausted outcome; (3) with no ACK anywhere in the trace the
sender's whole output stays the single block's frame repeated (at most 10
times) possibly followed by `CAN CAN` — the block number never advances. -/
theorem sender_retry_discipline (useCrc : Bool) (n : Nat) (b : List Nat)
    (bs : List (List Nat)) (reads : List (Option Nat)) (ws : List (List Nat)) :
    (∀ fuel, ∃ m, m ≤ fuel ∧
        (attemptBlock useCrc n b fuel reads ws).2.2 =
          ws ++ List.replicate m (buildPacket n b useCrc)) ∧
      ((∀ r ∈ reads, r ≠ some ACK ∧ r ≠ some CAN) →
        sendBlocks useCrc (b :: bs) n reads ws =
          (.retryExhausted, reads.drop 10,
            ws ++ List.replicate 10 (buildPacket n b useCrc) ++ [[CAN, CAN]])) ∧
      ((∀ r ∈ reads, r ≠ some ACK) →
        ∃ m t, m ≤ 10 ∧ (t = [] ∨ t = [[CAN, CAN]]) ∧
          (sendBlocks useCrc (b :: bs) n reads ws).2.2 =
            ws ++ List.replicate m (buildPacket n b useCrc) ++ t) := by
  have hsb : sendBlocks useCrc (b :: bs) n reads ws =
      match attemptBlock useCrc n b RETRY_LIMIT reads ws with
      | (.acked, rest, w) => sendBlocks useCrc bs ((n + 1) % 256) rest w
      | (.canceled, rest, w) => (.peerCanceled, rest, w)
      | (.exhausted, rest, w) => (.retryExhausted, rest, w ++ [[CAN, CAN]]) := rfl
  refine ⟨fun fuel => attemptBlock_writes useCrc n b fuel reads ws, fun h => ?_, fun h => ?_⟩
  · have ha := attemptBlock_no_ack_can useCrc n b RETRY_LIMIT reads ws h
    rw [hsb, ha]
    exact rfl
  · have hna := attemptBlock_not_acked useCrc n b RETRY_LIMIT reads ws h
    obtain ⟨m, hm, hw⟩ := attemptBlock_writes useCrc n b RETRY_LIMIT reads ws
    rcases hres : attemptBlock useCrc n b RETRY_LIMIT reads ws with ⟨res, rest, w⟩
    rw [hres] at hna hw
    simp only at hna hw
    cases res with
    | acked => exact absurd rfl hna
    | canceled =>
      refine ⟨m, [], hm, Or.inl rfl, ?_⟩
      have hval : (sendBlocks useCrc (b :: bs) n reads ws).2.2 = w := by
        rw [hsb, hres]
      rw [hval, List.append_nil]
      exact hw
    | exhausted =>
      refine ⟨m, [[CAN, CAN]], hm, Or.inr rfl, ?_⟩
      have hval : (sendBlocks useCrc (b :: bs) n reads ws).2.2 = w ++ [[CAN, CAN]] := by
        rw [hsb, hres]
      rw [hval, hw]

theorem sender_retry_discipline_witness :
    sendBlocks false [List.replicate 128 0] 1 (List.replicate 10 (some NAK)) [] =
      (.retryExhausted, [],
        List.replicate 10 (buildPacket 1 (List.replicate 128 0) false) ++ [[CAN, CAN]]) := by
  have h := (sender_retry_discipline false 1 (List.replicate 128 0) []
    (List.replicate 10 (some NAK)) []).2.1 (by decide)
  simpa using h

/-- C10: when the file length is an exact multiple of 128 — including the
empty file — `send_file` appends no padding (the computed padding size is
128 and the padding branch is skipped); the empty file yields zero data
blocks, and after a successful handshake the sender writes nothing but EOT
(between 1 and 10 copies, one per unacknowledged attempt). -/
theorem exact_multiple_no_padding :
    (∀ F : List Nat, F.length % 128 = 0 → padContent F = F) ∧
      chunkBlocks (padContent []) = [] ∧
      (∀ (ct : ChecksumType) (b : Nat) (reads : List (Option Nat)),
        ∃ k, 1 ≤ k ∧ k ≤ 10 ∧
          (send_file [] ct (some b) reads).2 = List.replicate k [EOT]) := by
  refine ⟨fun F h0 => ?_, rfl, fun ct b reads => ?_⟩
  · simp only [padContent, BLOCK_SIZE, PADDING]
    rw [if_neg (by omega)]
  · obtain ⟨k, h1, hk, hw⟩ := sendEot_writes 9 reads []
    refine ⟨k, h1, by omega, ?_⟩
    have hgoal : (send_file [] ct (some b) reads).2 = (sendEot 10 reads []).2.2 := rfl
    rw [hgoal]
    simpa using hw

theorem exact_multiple_no_padding_witness :
    padContent (List.replicate 256 7) = List.replicate 256 7 :=
  exact_multiple_no_padding.1 _ (by decide)

theorem receiveLoop_frame_accept (useCrc : Bool) (fuel : Nat) (bn comp : Nat)
    (data t lead : List Nat) (rest : List (List Nat)) (e : Nat) (acc : List Nat)
    (ws : List (List Nat)) (hseq : seqCheck bn comp = true) (hlen : data.length = 128)
    (htr : trailerOk useCrc data t = true) :
    receiveLoop useCrc (fuel + 1) ([bn] :: [comp] :: data :: t :: lead :: rest) e acc ws =
      if bn = e then
        (if lead = [EOT] then some (true, acc ++ data, ws ++ [[ACK], [ACK]])
         else receiveLoop useCrc fuel rest ((e + 1) % 256) (acc ++ data) (ws ++ [[ACK]]))
      else if bn = (e + 255) % 256 then
        (if lead = [EOT] then some (true, acc, ws ++ [[ACK], [ACK]])
         else receiveLoop useCrc fuel rest e acc (ws ++ [[ACK]]))
      else some (false, acc, ws ++ [[CAN], [CAN]]) := by
  simp only [receiveLoop]
  rw [if_neg (by simp [hseq]), if_neg (by simp [hlen, BLOCK_SIZE]), if_neg (by simp [htr])]
  by_cases hbe : bn = e
  · rw [if_pos hbe, if_pos hbe]
    by_cases hl : lead = [EOT]
    · rw [if_pos hl, if_pos hl]
    · rw [if_neg hl, if_neg hl, ite_self, ite_self]
  · rw [if_neg hbe, if_neg hbe]
    by_cases hbd : bn = (e + 255) % 256
    · rw [if_pos hbd, if_pos hbd]
      by_cases hl : lead = [EOT]
      · rw [if_pos hl, if_pos hl]
      · rw [if_neg hl, if_neg hl, ite_self, ite_self]
    · rw [if_neg hbd, if_neg hbd]

theorem receiveLoop_frame_reject (useCrc : Bool) (fuel : Nat) (bn comp : Nat)
    (data t : List Nat) (rest : List (List Nat)) (e : Nat) (acc : List Nat)
    (ws : List (List Nat)) (hseq : seqCheck bn comp = true) (hlen : data.length = 128)
    (htr : trailerOk useCrc data t = true) (hne : bn ≠ e) (hnd : bn ≠ (e + 255) % 256) :
    receiveLoop useCrc (fuel + 1) ([bn] :: [comp] :: data :: t :: rest) e acc ws =
      some (false, acc, ws ++ [[CAN], [CAN]]) := by
  simp only [receiveLoop]
  rw [if_neg (by simp [hseq]), if_neg (by simp [hlen, BLOCK_SIZE]), if_neg (by simp [htr]),
    if_neg hne, if_neg hnd]

/-- C6 counterexample: after a valid frame the lead read times out (the
empty read `[]`); the code then re-enters the frame loop and interprets the
next byte, 0x04, as a BLOCK NUMBER.  With its complement 0xFB and a valid
payload it forms a well-formed but out-of-sequence frame, so the receiver
writes `CAN CAN` and fails — whereas under the spec's claimed behaviour
(loop back to read the next lead byte) the 0x04 is an EOT: the spec-worded
receiver `receiveLoopSpecLead` ACKs it and succeeds on the same trace. -/
theorem receiver_lead_byte_counterexample :
    receiveLoop false 10
        [[1], [254], List.replicate 128 0, [0], [], [4], [251], List.replicate 128 0, [0]]
        1 [] [] = some (false, List.replicate 128 0, [[ACK], [CAN], [CAN]]) ∧
      receiveLoopSpecLead false 10 false
        [[1], [254], List.replicate 128 0, [0], [], [4], [251], List.replicate 128 0, [0]]
        1 [] [] = some (true, List.replicate 128 0, [[ACK], [ACK]]) :=
  ⟨by decide, by decide⟩

/-- C6 (amended): after a frame has been processed the next byte read is the
lead byte; EOT ends the transfer with an ACK; and SOH, a read timeout, and
any other byte all behave identically — the receiver returns to the top of
the per-frame loop, where the FOLLOWING byte is interpreted as a block
number (the `continue` on timeout/other is the same continuation as the
SOH case, not a re-read of the lead byte). -/
theorem receiver_lead_byte (useCrc : Bool) (fuel e : Nat) (data t lead : List Nat)
    (rest : List (List Nat)) (acc : List Nat) (ws : List (List Nat)) (he : e < 256)
    (hlen : data.length = 128) (htr : trailerOk useCrc data t = true)
    (hlead : lead ≠ [EOT]) :
    receiveLoop useCrc (fuel + 1) ([e] :: [255 - e] :: data :: t :: lead :: rest) e acc ws =
        receiveLoop useCrc fuel rest ((e + 1) % 256) (acc ++ data) (ws ++ [[ACK]]) ∧
      receiveLoop useCrc (fuel + 1) ([e] :: [255 - e] :: data :: t :: [EOT] :: rest) e acc ws =
        some (true, acc ++ data, ws ++ [[ACK], [ACK]]) := by
  have hseq : seqCheck e (255 - e) = true := by
    simp only [seqCheck, beq_iff_eq]
    omega
  constructor
  · rw [receiveLoop_frame_accept useCrc fuel e (255 - e) data t lead rest e acc ws hseq
      hlen htr, if_pos rfl, if_neg hlead]
  · rw [receiveLoop_frame_accept useCrc fuel e (255 - e) data t [EOT] rest e acc ws hseq
      hlen htr, if_pos rfl, if_pos rfl]

theorem receiver_lead_byte_witness :
    receiveLoop false 1 [[1], [254], List.replicate 128 0, [0], []] 1 [] [] =
      receiveLoop false 0 [] ((1 + 1) % 256) ([] ++ List.replicate 128 0) ([] ++ [[ACK]]) :=
  (receiver_lead_byte false 0 1 (List.replicate 128 0) [0] [] [] [] [] (by decide) (by decide)
    (by decide) (by decide)).1

/-- C7: duplicate-frame idempotence.  For every receiver state with
expected block `e`, a frame that passes the complement and integrity checks
and carries block number `(e - 1) % 256` is ACKed WITHOUT appending its
payload: the accumulated buffer stays `acc` and the expected block stays
`e` in the continuation (and on an EOT lead the final payload is exactly
the unchanged `acc`). -/
theorem duplicate_frame_idempotent (useCrc : Bool) (fuel : Nat) (e : Nat)
    (data t lead : List Nat) (rest : List (List Nat)) (acc : List Nat)
    (ws : List (List Nat)) (_he : e < 256) (hlen : data.length = 128)
    (htr : trailerOk useCrc data t = true) :
    receiveLoop useCrc (fuel + 1)
        ([(e + 255) % 256] :: [255 - (e + 255) % 256] :: data :: t :: lead :: rest) e acc ws =
      if lead = [EOT] then some (true, acc, ws ++ [[ACK], [ACK]])
      else receiveLoop useCrc fuel rest e acc (ws ++ [[ACK]]) := by
  have hb : (e + 255) % 256 ≠ e := by omega
  have hseq : seqCheck ((e + 255) % 256) (255 - (e + 255) % 256) = true := by
    simp only [seqCheck, beq_iff_eq]
    omega
  rw [receiveLoop_frame_accept useCrc fuel ((e + 255) % 256) (255 - (e + 255) % 256) data t
    lead rest e acc ws hseq hlen htr, if_neg hb, if_pos rfl]

theorem duplicate_frame_idempotent_witness :
    receiveLoop false 1 [[0], [255], List.replicate 128 0, [0], []] 1 [] [] =
      receiveLoop false 0 [] 1 [] ([] ++ [[ACK]]) := by
  have h := duplicate_frame_idempotent false 0 1 (List.replicate 128 0) [0] [] [] [] []
    (by decide) (by decide) (by decide)
  simpa [EOT] using h

/-- C8: out-of-sequence abort with no partial output.  A frame that passes
the complement and integrity checks but whose block number is neither the
expected block nor the previous one makes the receiver write `CAN` twice
and return the failure flag; and from the initial state (expected block 1)
`receive_file` on such a trace writes nothing to the output sink. -/
theorem out_of_sequence_abort (useCrc : Bool) (bn comp : Nat) (data t : List Nat)
    (rest : List (List Nat)) (hseq : seqCheck bn comp = true) (hlen : data.length = 128)
    (htr : trailerOk useCrc data t = true) (h1 : bn ≠ 1) (h0 : bn ≠ 0) :
    (∀ fuel e acc ws, bn ≠ e → bn ≠ (e + 255) % 256 →
        receiveLoop useCrc (fuel + 1) ([bn] :: [comp] :: data :: t :: rest) e acc ws =
          some (false, acc, ws ++ [[CAN], [CAN]])) ∧
      receive_file useCrc ([bn] :: [comp] :: data :: t :: rest) = (none, [[CAN], [CAN]]) := by
  refine ⟨fun fuel e acc ws hne hnd =>
    receiveLoop_frame_reject useCrc fuel bn comp data t rest e acc ws hseq hlen htr hne hnd,
    ?_⟩
  have h := receiveLoop_frame_reject useCrc (([bn] :: [comp] :: data :: t :: rest).length)
    bn comp data t rest 1 [] [] hseq hlen htr h1 (by simpa using h0)
  simp only [receive_file, h, List.nil_append]

theorem out_of_sequence_abort_witness :
    receive_file false [[3], [252], List.replicate 128 0, [0]] = (none, [[CAN], [CAN]]) :=
  (out_of_sequence_abort false 3 252 (List.replicate 128 0) [0] [] (by decide) (by decide)
    (by decide) (by decide) (by decide)).2
